/-
Verification of the event-extraction and calendar-layout pipeline of
`src/app.py` (a spreadsheet-to-monthly-calendar renderer).

The development shallowly embeds the three core functions of the source:

* `format_time_range` (app.py lines 72-81),
* `build_events_dict`  (app.py lines 84-139), and
* `draw_month_calendar` (app.py lines 146-287),

together with the pieces of the Python standard library / pandas they use
(`str.split`, `str.zfill`, `str.strip`, forward fill, `pd.to_datetime`,
`calendar.monthcalendar`).  Pandas cell values are modelled by `Cell`
(missing / string / other object), a DataFrame row by `Row`, the events
dictionary by an insertion-ordered association list, and exceptions by
`Option` (`none` = the Python call raised).
-/
import Mathlib

set_option autoImplicit false

namespace CalApp

/-! ### Pandas cell values -/

/-- A pandas cell value: `na` is a missing value (`NaN`), `str s` a Python
string, `obj r` any other (non-string) object whose `str()` rendering is
`r`. -/
inductive Cell where
  | na
  | str (s : String)
  | obj (r : String)
deriving DecidableEq, Repr

/-- `pd.isna` on a cell. -/
def Cell.isna : Cell → Bool
  | .na => true
  | _ => false

/-- Python `str()` of a cell value (`str(nan) = "nan"`). -/
def Cell.pyStr : Cell → String
  | .na => "nan"
  | .str s => s
  | .obj r => r

/-- Whether the cell holds a Python string (`isinstance(raw, str)`). -/
def Cell.isStr : Cell → Bool
  | .str _ => true
  | _ => false

/-! ### Python string helpers used by `format_time_range` -/

/-- Python `raw.split(sep)` for a one-character separator, on the character
list of the string.  `"".split("-") = [""]`, `"a-b-c".split("-") =
["a","b","c"]`. -/
def pySplit (sep : Char) : List Char → List (List Char)
  | [] => [[]]
  | c :: rest =>
    match pySplit sep rest with
    | [] => [[]]
    | p :: ps => if c = sep then [] :: p :: ps else (c :: p) :: ps

/-- Python `s.zfill(w)`: left-pad with `'0'` to width `w`, keeping a
leading sign character in front of the padding. -/
def pyZfill (w : Nat) (l : List Char) : List Char :=
  if w ≤ l.length then l
  else
    match l with
    | [] => List.replicate w '0'
    | c :: rest =>
      if c = '+' ∨ c = '-' then c :: (List.replicate (w - l.length) '0' ++ rest)
      else List.replicate (w - l.length) '0' ++ (c :: rest)

/-- `format_time_range` (app.py 72-81).  Returns `none` when the Python
code raises (the two-variable unpacking `start, end = raw.split("-")`
fails whenever the split does not produce exactly two parts). -/
def format_time_range (raw : Cell) : Option String :=
  match raw with
  | .str s =>
    if ¬ s.data.contains '-' then some s
    else
      match pySplit '-' s.data with
      | [st, en] =>
        let st4 := pyZfill 4 st
        let en4 := pyZfill 4 en
        some (String.mk (st4.take 2 ++ [':'] ++ st4.drop 2 ++ ['-'] ++
                         en4.take 2 ++ [':'] ++ en4.drop 2))
      | _ => none
  | _ => some ""

/-- Python's whitespace characters (the set `str.strip` removes). -/
def isPySpace (c : Char) : Bool :=
  c == ' ' || c == '\t' || c == '\n' || c == '\r' || c == '\x0b' || c == '\x0c'

/-- Python `s.strip()`: drop leading and trailing whitespace. -/
def pyStrip (s : String) : String :=
  String.mk (((s.data.dropWhile isPySpace).reverse.dropWhile isPySpace).reverse)

/-! ### The event extractor (`build_events_dict`, app.py 84-139) -/

/-- One data row of the sheet.  Field names correspond to the source's
column keys: `date` = 日期, `weekday` = 星期, `location` = 地點,
`time` = 時間, `classUse` = 上課, `loanUse` = 借用, `visitUse` = 參訪,
`reason` = 申請事由, `unit` = 申請單位. -/
structure Row where
  date : Cell
  weekday : Cell
  location : Cell
  time : Cell
  classUse : Cell
  loanUse : Cell
  visitUse : Cell
  reason : Cell
  unit : Cell
deriving DecidableEq, Repr

/-- One pass of pandas `ffill` down a single column: a missing cell
inherits the nearest preceding non-missing value (`last`, initially the
missing value itself). -/
def ffillCol (last : Cell) : List Cell → List Cell
  | [] => []
  | c :: rest =>
    let c' := if c.isna then last else c
    c' :: ffillCol c' rest

/-- `df[["日期","星期","地點"]] = df[["日期","星期","地點"]].ffill()`
(app.py 92): forward-fill the date, weekday and location columns of the
frame, leaving the other columns untouched.  This assignment mutates the
caller's DataFrame in place; `build_events_dict` returns the mutated frame
as its first component to make that effect explicit.
`setFfillFields` writes one row's filled (date, weekday, location) triple
back into the row. -/
def setFfillFields (p : Row × (Cell × Cell × Cell)) : Row :=
  { p.1 with date := p.2.1, weekday := p.2.2.1, location := p.2.2.2 }

/-- See `setFfillFields`: the columnwise forward fill of app.py 92. -/
def ffill3 (df : List Row) : List Row :=
  let dates := ffillCol .na (df.map Row.date)
  let wdays := ffillCol .na (df.map Row.weekday)
  let locs := ffillCol .na (df.map Row.location)
  (df.zip (dates.zip (wdays.zip locs))).map setFfillFields

/-- A parsed calendar date (what `pd.to_datetime` yields). -/
structure PDate where
  year : Nat
  month : Nat
  day : Nat
deriving DecidableEq, Repr

/-- Whether year `y` is a Gregorian leap year (`calendar.isleap`). -/
def isleap (y : Nat) : Bool := y % 4 = 0 ∧ (y % 100 ≠ 0 ∨ y % 400 = 0)

/-- Number of days of month `m` of year `y` (months numbered 1-12;
0 outside that range, which no caller uses). -/
def daysInMonth (y m : Nat) : Nat :=
  match m with
  | 1 => 31 | 2 => if isleap y then 29 else 28 | 3 => 31 | 4 => 30
  | 5 => 31 | 6 => 30 | 7 => 31 | 8 => 31 | 9 => 30 | 10 => 31
  | 11 => 30 | 12 => 31 | _ => 0

/-- Parse a non-empty all-digit character list as a decimal number. -/
def digitsToNat? (l : List Char) : Option Nat :=
  if l ≠ [] ∧ l.all Char.isDigit then
    some (l.foldl (fun a c => a * 10 + (c.toNat - '0'.toNat)) 0)
  else none

/-- Model of `pd.to_datetime` on a single cell: an ISO `"Y-M-D"` string
parses to a date when its three dash-separated fields are numeric and in
range; anything else raises (`none`).  Missing cells never reach the
parse (they are filtered out first, app.py 95). -/
def parse_date (c : Cell) : Option PDate :=
  match c with
  | .str s =>
    match (pySplit '-' s.data).map digitsToNat? with
    | [some y, some m, some d] =>
      if 1 ≤ m ∧ m ≤ 12 ∧ 1 ≤ d ∧ d ≤ daysInMonth y m ∧ 1 ≤ y then
        some ⟨y, m, d⟩
      else none
    | _ => none
  | _ => none

/-- The rows that survive the two filters `df[df["時間"].notna()]` and
`df[df["日期"].notna()]` (app.py 94-95), after the forward fill. -/
def keptRows (df : List Row) : List Row :=
  ((ffill3 df).filter (fun r => ¬ r.time.isna)).filter (fun r => ¬ r.date.isna)

/-- The tag list of a row (app.py 105-111): `"上課"`, `"借用"`, `"參訪"`
appended in that order, each when the cell's `str()` equals `"V"`. -/
def tagsOf (r : Row) : List String :=
  let tags : List String := []
  let tags := if r.classUse.pyStr = "V" then tags ++ ["上課"] else tags
  let tags := if r.loanUse.pyStr = "V" then tags ++ ["借用"] else tags
  let tags := if r.visitUse.pyStr = "V" then tags ++ ["參訪"] else tags
  tags

/-- `tag_text` (app.py 112): parenthesized `、`-joined tag list, or the
empty string when no tag is set. -/
def tag_text (r : Row) : String :=
  if tagsOf r = [] then "" else "(" ++ String.intercalate "、" (tagsOf r) ++ ")"

/-- Field normalization shared by reason and unit (app.py 118-119):
`"" if pd.isna(x) else str(x).strip()`. -/
def normField (c : Cell) : String := if c.isna then "" else pyStrip c.pyStr

/-- The description of a row (app.py 115-130): reason and unit are the
stripped `str()` of their cells with missing treated as empty; both
non-empty join with `"｜"`, one non-empty stands alone, both empty yield
`none` (the row is skipped). -/
def descOf (reasonRaw unitRaw : Cell) : Option String :=
  let reason := normField reasonRaw
  let unit := normField unitRaw
  if reason ≠ "" ∧ unit ≠ "" then some (reason ++ "｜" ++ unit)
  else if reason ≠ "" then some reason
  else if unit ≠ "" then some unit
  else none

/-- The body of the row loop (app.py 101-136) for one row, day aside:
`none` = the iteration raised (only `format_time_range` can),
`some none` = the row was skipped by a `continue`,
`some (some line)` = the row emits the event line `line`. -/
def rowEvent (r : Row) : Option (Option String) :=
  match format_time_range (.str r.time.pyStr) with
  | none => none
  | some time_str =>
    match descOf r.reason r.unit with
    | none => some none
    | some desc =>
      if time_str = "" then some none
      else some (some (pyStrip (time_str ++ " " ++ tag_text r ++ " " ++ desc)))

/-- The events dictionary: an insertion-ordered association list from day
of month to the day's event lines (Python dicts preserve key insertion
order). -/
abbrev EventsMap := List (Nat × List String)

/-- `events_by_day.setdefault(day, []).append(event_line)` (app.py 137). -/
def addEvent (m : EventsMap) (day : Nat) (line : String) : EventsMap :=
  match m with
  | [] => [(day, [line])]
  | (d, es) :: rest =>
    if d = day then (d, es ++ [line]) :: rest else (d, es) :: addEvent rest day line

/-- One iteration of the row loop acting on the accumulated dictionary
(`none` when the iteration raised). -/
def stepRow (m : EventsMap) (day : Nat) (r : Row) : Option EventsMap :=
  (rowEvent r).map fun o =>
    match o with
    | none => m
    | some line => addEvent m day line

/-- `build_events_dict` (app.py 84-139).  First component: the caller's
DataFrame after the call (the in-place forward fill of app.py 92 is its
only caller-visible mutation).  Second component: the events dictionary,
or `none` when the call raised — `pd.to_datetime` converts the whole date
column before the loop, so one malformed date aborts the sheet; a
malformed time range aborts from inside the loop. -/
def build_events_dict (df : List Row) : List Row × Option EventsMap :=
  (ffill3 df,
    match (keptRows df).mapM (fun r => (parse_date r.date).map fun d => (d, r)) with
    | none => none
    | some prs => prs.foldlM (fun m dr => stepRow m dr.1.day dr.2) [])

/-! ### The Python `calendar` module pieces used by the layout engine -/

/-- Days in all years before year `y` of the proleptic Gregorian calendar
(`datetime._days_before_year`). -/
def daysBeforeYear (y : Nat) : Nat :=
  365 * (y - 1) + (y - 1) / 4 - (y - 1) / 100 + (y - 1) / 400

/-- Days in year `y` preceding month `m` (`datetime._days_before_month`). -/
def daysBeforeMonth (y m : Nat) : Nat :=
  (List.range (m - 1)).foldl (fun a k => a + daysInMonth y (k + 1)) 0

/-- `datetime.date(y, m, d).toordinal()`: day 1 is 0001-01-01. -/
def toOrdinal (y m d : Nat) : Nat :=
  daysBeforeYear y + daysBeforeMonth y m + d

/-- `calendar.weekday(y, m, d)`: Monday is 0 (0001-01-01 was a Monday). -/
def pyWeekday (y m d : Nat) : Nat :=
  (toOrdinal y m d + 6) % 7

/-- The flat day list of `Calendar.itermonthdays(year, month)` for first
weekday `fw`: `(day1 - fw) % 7` zeros, the days `1..ndays`, then
`(fw - day1 - ndays) % 7` zeros (Python `%` on ints, hence `Int.emod`). -/
def monthDayList (fw year month : Nat) : List Nat :=
  let day1 := pyWeekday year month 1
  let ndays := daysInMonth year month
  let before := ((((day1 : Int) - fw) % 7)).toNat
  let after := ((((fw : Int) - day1 - ndays) % 7)).toNat
  List.replicate before 0 ++ List.range' 1 ndays ++ List.replicate after 0

/-- Slice a flat list into consecutive weeks of (at most) seven days
(`monthdayscalendar`'s `[days[i:i+7] for i in range(0, len(days), 7)]`). -/
def chunk7 : List Nat → List (List Nat)
  | [] => []
  | c :: rest => ((c :: rest).take 7) :: chunk7 ((c :: rest).drop 7)
termination_by l => l.length
decreasing_by simp [List.length_drop]; omega

/-- `calendar.monthcalendar(year, month)` with the module-global first
weekday `fw` (the source sets it to `calendar.SUNDAY = 6` first). -/
def monthcalendar (fw year month : Nat) : List (List Nat) :=
  chunk7 (monthDayList fw year month)

/-! ### The layout engine (`draw_month_calendar`, app.py 146-287) -/

/-- The mutable module-global state of Python's `calendar` module that the
source touches via `calendar.setfirstweekday` (app.py 156). -/
structure GlobalState where
  firstweekday : Nat
deriving DecidableEq, Repr

/-- An abstract drawing instruction: `patches.Rectangle`-plus-`add_patch`
becomes `rect` (position, size, face color, optional edge color, line
width); `ax.text` becomes `text` (position, string, alignment, font size,
bold flag, optional color). -/
inductive DrawCmd where
  | rect (x y w h : ℚ) (facecolor : String) (edgecolor : Option String) (linewidth : ℚ)
  | text (x y : ℚ) (s : String) (ha va : String) (fontsize : ℚ) (bold : Bool)
      (color : Option String)
deriving DecidableEq, Repr

/-- The vertical coordinate of a command. -/
def DrawCmd.yPos : DrawCmd → ℚ
  | .rect _ y _ _ _ _ _ => y
  | .text _ y _ _ _ _ _ _ => y

/-- Model of `textwrap.fill(event, width=17)`: greedy word wrap of the
space-separated words to lines of at most `width` characters, joined by
newlines.  (True `textwrap` would additionally break single words longer
than the width; no event string below exercises that, and no theorem
depends on the wrapped text's content.) -/
def wrapFill (width : Nat) (s : String) : String :=
  let words := (s.splitOn " ").filter (fun w => w ≠ "")
  let step := fun (acc : List String × String) (w : String) =>
    if acc.2 = "" then (acc.1, w)
    else if acc.2.length + 1 + w.length ≤ width then (acc.1, acc.2 ++ " " ++ w)
    else (acc.1 ++ [acc.2], w)
  let fin := words.foldl step ([], "")
  String.intercalate "\n" (if fin.2 = "" then fin.1 else fin.1 ++ [fin.2])

/-- `events_by_day.get(day, [])` (app.py 259). -/
def lookupDay (m : EventsMap) (day : Nat) : List String :=
  (((m.find? fun p => p.1 = day).map Prod.snd)).getD []

/-- The bottom edge of the cell row of week index `wIdx`:
`weeks - (week_idx + 1) - 0.1` (app.py 221, the `- 0.1` shifts the grid
slightly down so it does not touch the weekday header band). -/
def cellY (weeks wIdx : Nat) : ℚ := (weeks : ℚ) - (wIdx + 1) - 1 / 10

/-- The commands emitted for one grid cell (app.py 218-279): the unit
square, then — for a real day — the bold day number at the cell's
top-left and, when the day has events, one multi-line bulleted text
block below it. -/
def cellCmds (weeks wIdx dIdx day : Nat) (events_by_day : EventsMap) : List DrawCmd :=
  let x : ℚ := dIdx
  let y : ℚ := cellY weeks wIdx
  let facecolor :=
    if day = 0 then "#FFFFFF"
    else if dIdx = 0 ∨ dIdx = 6 then "#FBFBFD"
    else "#FFFFFF"
  let rectCmd := DrawCmd.rect x y 1 1 facecolor (some "#DDDDDD") (4 / 5)
  if day = 0 then [rectCmd]
  else
    let dayTxt := DrawCmd.text (x + 1 / 20) (y + 19 / 20) (toString day)
      "left" "top" 13 true (some "#333333")
    let events := lookupDay events_by_day day
    if events = [] then [rectCmd, dayTxt]
    else
      let cell_text := String.intercalate "\n" (events.map fun e => "• " ++ wrapFill 17 e)
      [rectCmd, dayTxt,
       DrawCmd.text (x + 1 / 20) (y + 4 / 5) cell_text "left" "top" (21 / 2) false
         (some "#333333")]

/-- The title, subtitle and weekday-header commands (app.py 167-215). -/
def headerCmds (weeks : Nat) (title_text : String) : List DrawCmd :=
  [.text (1 / 50) ((weeks : ℚ) + 9 / 20) title_text "left" "center" 26 true none,
   .text (1 / 50) ((weeks : ℚ) + 3 / 20) "時間、申請事由與申請單位一覽"
     "left" "center" 14 false (some "#666666")] ++
  (["週日", "週一", "週二", "週三", "週四", "週五", "週六"].enum.map fun iw =>
    [DrawCmd.rect (iw.1) ((weeks : ℚ) - 3 / 10) 1 (1 / 2) "#F0F0F5" none 0,
     DrawCmd.text ((iw.1 : ℚ) + 1 / 2) ((weeks : ℚ) + 1 / 2 - 9 / 20) iw.2
       "center" "center" 16 true (some "#333333")]).flatten

/-- `draw_month_calendar` (app.py 146-287) as a function of the
`calendar` module's global state: it first sets the global first weekday
to Sunday (app.py 156) and then lays out the month grid read back from
that state.  The result is the emitted command sequence and the global
state after the call.  (The font setup of app.py 154 touches only
matplotlib's font configuration and an on-disk font cache, not the
geometry or content of any command, and is outside this model; figure
creation, saving and the returned PNG buffer are the out-of-scope
rendering backend.) -/
def draw_month_calendar (gs : GlobalState) (year month : Nat)
    (events_by_day : EventsMap) (title_text : String) :
    List DrawCmd × GlobalState :=
  let gs' : GlobalState := ⟨6⟩
  let month_matrix := monthcalendar gs'.firstweekday year month
  let weeks := month_matrix.length
  (headerCmds weeks title_text ++
    (month_matrix.enum.map fun wk =>
      (wk.2.enum.map fun dy => cellCmds weeks wk.1 dy.1 dy.2 events_by_day).flatten).flatten,
   gs')

/-! ### Helper lemmas -/

theorem pySplit_ne_nil (sep : Char) (l : List Char) : pySplit sep l ≠ [] := by
  cases l with
  | nil => simp [pySplit]
  | cons c rest =>
    simp only [pySplit]
    split
    · simp
    · split <;> simp

theorem pySplit_length (sep : Char) (l : List Char) :
    (pySplit sep l).length = l.count sep + 1 := by
  induction l with
  | nil => simp [pySplit]
  | cons c rest ih =>
    simp only [pySplit]
    cases hp : pySplit sep rest with
    | nil => exact absurd hp (pySplit_ne_nil sep rest)
    | cons p ps =>
      rw [hp] at ih
      simp only [List.length_cons] at ih
      by_cases hc : c = sep
      · simp [hc, List.count_cons]
        omega
      · simp [hc, List.count_cons]
        omega

theorem contains_eq_count_ne_zero (a : Char) (l : List Char) :
    l.contains a = true ↔ l.count a ≠ 0 := by
  rw [List.contains, List.elem_iff]
  constructor
  · intro h
    have := List.count_pos_iff.mpr h
    omega
  · intro h
    exact List.count_pos_iff.mp (by omega)

/-! ### C2: behaviour of the time-range formatter -/

/-- C2: `format_time_range` maps `"0900-1200"` to `"09:00-12:00"`, maps
the unpadded `"900-1200"` to `"09:00-12:00"`, returns any string not
containing `"-"` unchanged, and returns the empty string on every
non-string input. -/
theorem format_time_range_spec :
    format_time_range (.str "0900-1200") = some "09:00-12:00" ∧
    format_time_range (.str "900-1200") = some "09:00-12:00" ∧
    (∀ s : String, s.data.contains '-' = false → format_time_range (.str s) = some s) ∧
    (∀ c : Cell, c.isStr = false → format_time_range c = some "") := by
  refine ⟨by decide, by decide, ?_, ?_⟩
  · intro s h
    rw [List.contains] at h
    have h' : '-' ∉ s.data := fun hm => by rw [List.elem_iff.mpr hm] at h; cases h
    simp [format_time_range, h']
  · intro c h
    cases c <;> simp_all [format_time_range, Cell.isStr]

/-- Witness for C2 at concrete inputs. -/
theorem format_time_range_spec_witness :
    format_time_range (.str "morning") = some "morning" ∧
    format_time_range .na = some "" ∧
    format_time_range (.obj "900") = some "" :=
  ⟨format_time_range_spec.2.2.1 "morning" (by decide),
   format_time_range_spec.2.2.2 .na (by decide),
   format_time_range_spec.2.2.2 (.obj "900") (by decide)⟩

/-! ### C10: where the time-range formatter raises -/

/-- C10 counterexample: the formatter's own output `"09:00-12:00"`
contains only one `"-"` character, and feeding it back does not raise —
it returns (the further-mangled) `"09::00-12::00"`. -/
theorem format_time_range_own_output_cex :
    format_time_range (.str "09:00-12:00") = some "09::00-12::00" ∧
    "09:00-12:00".data.count '-' = 1 := by
  decide

/-- C10 (amended): `format_time_range` raises exactly on the string
inputs that contain two or more `"-"` characters; it returns normally
for every non-string and every string with at most one `"-"`. -/
theorem format_time_range_raises_iff (c : Cell) :
    format_time_range c = none ↔ ∃ s, c = .str s ∧ 2 ≤ s.data.count '-' := by
  cases c with
  | na => simp [format_time_range]
  | obj r => simp [format_time_range]
  | str s =>
    simp only [format_time_range]
    have hlen := pySplit_length '-' s.data
    by_cases hc : s.data.contains '-' = true
    · have hcnt : s.data.count '-' ≠ 0 := (contains_eq_count_ne_zero '-' s.data).mp hc
      have hmem : '-' ∈ s.data := List.count_pos_iff.mp (by omega)
      rw [if_neg (by simp [hmem])]
      cases hps : pySplit '-' s.data with
      | nil => exact absurd hps (pySplit_ne_nil '-' s.data)
      | cons p ps =>
        rw [hps] at hlen
        cases ps with
        | nil =>
          simp only [List.length_cons, List.length_nil] at hlen
          exact absurd (by omega : s.data.count '-' = 0) hcnt
        | cons q qs =>
          cases qs with
          | nil =>
            simp only [List.length_cons, List.length_nil] at hlen
            constructor
            · intro h
              exact absurd h (by simp)
            · rintro ⟨t, ht, hcount⟩
              cases ht
              omega
          | cons u us =>
            simp only [List.length_cons] at hlen
            constructor
            · intro _
              exact ⟨s, rfl, by omega⟩
            · intro _
              rfl
    · rw [if_pos (by simpa using hc)]
      have hcnt : s.data.count '-' = 0 := by
        by_contra hne
        exact hc ((contains_eq_count_ne_zero '-' s.data).mpr hne)
      constructor
      · intro h
        exact absurd h (by simp)
      · rintro ⟨t, ht, hcount⟩
        cases ht
        omega

/-! ### C1: the description fallback rule -/

/-- C1: with reason and unit normalized (stripped, missing = empty), the
description is `reason｜unit` when both are non-empty, the non-empty one
alone when only one is, and when both are empty the row yields no event
and leaves the day-to-events mapping unchanged (stated for loop
iterations whose time-range call returns, i.e. does not raise). -/
theorem desc_fallback_spec (rr ur : Cell) :
    (normField rr ≠ "" → normField ur ≠ "" →
      descOf rr ur = some (normField rr ++ "｜" ++ normField ur)) ∧
    (normField rr ≠ "" → normField ur = "" → descOf rr ur = some (normField rr)) ∧
    (normField rr = "" → normField ur ≠ "" → descOf rr ur = some (normField ur)) ∧
    (normField rr = "" → normField ur = "" → descOf rr ur = none ∧
      ∀ (m : EventsMap) (day : Nat) (r : Row) (t : String),
        r.reason = rr → r.unit = ur →
        format_time_range (.str r.time.pyStr) = some t →
        stepRow m day r = some m) := by
  refine ⟨?_, ?_, ?_, ?_⟩
  · intro h1 h2
    simp [descOf, h1, h2]
  · intro h1 h2
    simp [descOf, h1, h2]
  · intro h1 h2
    simp [descOf, h1, h2]
  · intro h1 h2
    have hd : descOf rr ur = none := by simp [descOf, h1, h2]
    refine ⟨hd, ?_⟩
    intro m day r t hr hu ht
    have hre : rowEvent r = some none := by
      rw [rowEvent, ht, hr, hu, hd]
    simp [stepRow, hre]

/-- Witness for C1: all four description cases at concrete cells, and an
untouched mapping for a both-empty row. -/
theorem desc_fallback_spec_witness :
    descOf (.str " A ") (.str "B") = some "A｜B" ∧
    descOf (.str "A") .na = some "A" ∧
    descOf .na (.str " B ") = some "B" ∧
    (descOf .na (.str " ") = none ∧
      stepRow [(5, ["x"])] 5
        { date := .str "2025-11-05", weekday := .na, location := .na,
          time := .str "0900-1200", classUse := .na, loanUse := .na,
          visitUse := .na, reason := .na, unit := .str " " } =
        some [(5, ["x"])]) :=
  ⟨(desc_fallback_spec (.str " A ") (.str "B")).1 (by decide) (by decide),
   (desc_fallback_spec (.str "A") .na).2.1 (by decide) (by decide),
   (desc_fallback_spec .na (.str " B ")).2.2.1 (by decide) (by decide),
   ((desc_fallback_spec .na (.str " ")).2.2.2 (by decide) (by decide)).1,
   ((desc_fallback_spec .na (.str " ")).2.2.2 (by decide) (by decide)).2
     [(5, ["x"])] 5 _ "09:00-12:00" rfl rfl (by decide)⟩

/-! ### C7: shape of an emitted event line -/

/-- C7: for a loop iteration whose time-range call returns `tstr`, the
row's tag list is always an in-order sublist of
`["上課", "借用", "參訪"]` (never any other order); an event line is
emitted iff the description exists and `tstr` is non-empty, and then the
line is the whitespace-stripped `"{tstr} {tag_text} {desc}"`; when `tstr`
is empty or the description is missing, no event line is emitted. -/
theorem event_line_spec (r : Row) (tstr : String)
    (h : format_time_range (.str r.time.pyStr) = some tstr) :
    List.Sublist (tagsOf r) ["上課", "借用", "參訪"] ∧
    (∀ line, rowEvent r = some (some line) ↔
      ∃ desc, descOf r.reason r.unit = some desc ∧ tstr ≠ "" ∧
        line = pyStrip (tstr ++ " " ++ tag_text r ++ " " ++ desc)) ∧
    ((tstr = "" ∨ descOf r.reason r.unit = none) → rowEvent r = some none) := by
  refine ⟨?_, ?_, ?_⟩
  · unfold tagsOf
    split <;> split <;> split <;> decide
  · intro line
    rw [rowEvent, h]
    cases hd : descOf r.reason r.unit with
    | none => simp
    | some desc =>
      by_cases ht : tstr = ""
      · simp [ht, hd]
      · simp only [ht, if_false, Option.some.injEq]
        constructor
        · intro hline
          exact ⟨desc, rfl, ht, hline.symm⟩
        · rintro ⟨d, hd', hts, hl⟩
          subst hd'
          exact hl.symm
  · intro hcase
    rw [rowEvent, h]
    rcases hcase with ht | hd
    · cases hdsc : descOf r.reason r.unit <;> simp [ht, hdsc]
    · simp [hd]

/-- An example booking row: class and loan both flagged, reason only. -/
def rC7 : Row :=
  { date := .str "2025-11-05", weekday := .na, location := .na,
    time := .str "0900-1200", classUse := .str "V", loanUse := .str "V",
    visitUse := .na, reason := .str "Math", unit := .na }

/-- Witness for C7: the class-before-loan tag order and the full emitted
line at a concrete row. -/
theorem event_line_spec_witness :
    List.Sublist (tagsOf rC7) ["上課", "借用", "參訪"] ∧
    rowEvent rC7 = some (some "09:00-12:00 (上課、借用) Math") :=
  have h : format_time_range (.str rC7.time.pyStr) = some "09:00-12:00" := by decide
  ⟨(event_line_spec rC7 "09:00-12:00" h).1,
   ((event_line_spec rC7 "09:00-12:00" h).2.1 "09:00-12:00 (上課、借用) Math").mpr
     ⟨"Math", by decide, by decide, by decide⟩⟩

/-! ### C9: idempotence of the forward fill -/

theorem length_ffillCol (last : Cell) (l : List Cell) :
    (ffillCol last l).length = l.length := by
  induction l generalizing last with
  | nil => rfl
  | cons c rest ih => simp [ffillCol, ih]

theorem ffillCol_idem (last : Cell) (l : List Cell) :
    ffillCol last (ffillCol last l) = ffillCol last l := by
  induction l generalizing last with
  | nil => rfl
  | cons c rest ih =>
    by_cases hc : c.isna = true <;> simp [ffillCol, hc, ite_self, ih]

theorem setFfillFields_self (r : Row) (t : Cell × Cell × Cell) :
    setFfillFields (setFfillFields (r, t), t) = setFfillFields (r, t) := rfl

theorem zip_map_setFfillFields (l : List Row) (c : List (Cell × Cell × Cell)) :
    (((l.zip c).map setFfillFields).zip c).map setFfillFields =
      (l.zip c).map setFfillFields := by
  induction l generalizing c with
  | nil => rfl
  | cons r l' ih =>
    cases c with
    | nil => rfl
    | cons t c' =>
      simp only [List.zip_cons_cons, List.map_cons]
      rw [ih]
      rfl

theorem ffill3_map_cols (df : List Row) :
    (ffill3 df).map Row.date = ffillCol .na (df.map Row.date) ∧
    (ffill3 df).map Row.weekday = ffillCol .na (df.map Row.weekday) ∧
    (ffill3 df).map Row.location = ffillCol .na (df.map Row.location) := by
  have hd : (ffillCol .na (df.map Row.date)).length = df.length := by
    rw [length_ffillCol, List.length_map]
  have hw : (ffillCol .na (df.map Row.weekday)).length = df.length := by
    rw [length_ffillCol, List.length_map]
  have hl : (ffillCol .na (df.map Row.location)).length = df.length := by
    rw [length_ffillCol, List.length_map]
  have hwz : ((ffillCol .na (df.map Row.weekday)).zip
      (ffillCol .na (df.map Row.location))).length = df.length := by
    rw [List.length_zip, hw, hl]
    omega
  have hcols : ((ffillCol .na (df.map Row.date)).zip
      ((ffillCol .na (df.map Row.weekday)).zip
        (ffillCol .na (df.map Row.location)))).length = df.length := by
    rw [List.length_zip, hd, hwz]
    omega
  have hsnd : (df.zip ((ffillCol .na (df.map Row.date)).zip
      ((ffillCol .na (df.map Row.weekday)).zip
        (ffillCol .na (df.map Row.location))))).map Prod.snd =
      (ffillCol .na (df.map Row.date)).zip
        ((ffillCol .na (df.map Row.weekday)).zip
          (ffillCol .na (df.map Row.location))) :=
    List.map_snd_zip _ _ (by omega)
  refine ⟨?_, ?_, ?_⟩
  · show ((df.zip _).map setFfillFields).map Row.date = _
    rw [List.map_map]
    show (df.zip _).map (Prod.fst ∘ Prod.snd) = _
    rw [← List.map_map, hsnd]
    exact List.map_fst_zip _ _ (by omega)
  · show ((df.zip _).map setFfillFields).map Row.weekday = _
    rw [List.map_map]
    show (df.zip _).map (Prod.fst ∘ Prod.snd ∘ Prod.snd) = _
    rw [show (Prod.fst ∘ Prod.snd ∘ Prod.snd :
        Row × Cell × Cell × Cell → Cell) =
      (Prod.fst ∘ Prod.snd) ∘ Prod.snd from rfl]
    rw [← List.map_map, hsnd, ← List.map_map]
    rw [List.map_snd_zip _ _ (by omega)]
    exact List.map_fst_zip _ _ (by omega)
  · show ((df.zip _).map setFfillFields).map Row.location = _
    rw [List.map_map]
    show (df.zip _).map (Prod.snd ∘ Prod.snd ∘ Prod.snd) = _
    rw [show (Prod.snd ∘ Prod.snd ∘ Prod.snd :
        Row × Cell × Cell × Cell → Cell) =
      (Prod.snd ∘ Prod.snd) ∘ Prod.snd from rfl]
    rw [← List.map_map, hsnd, ← List.map_map]
    rw [List.map_snd_zip _ _ (by omega)]
    exact List.map_snd_zip _ _ (by omega)

theorem ffill3_idem (df : List Row) : ffill3 (ffill3 df) = ffill3 df := by
  obtain ⟨h1, h2, h3⟩ := ffill3_map_cols df
  show ((ffill3 df).zip
    ((ffillCol .na ((ffill3 df).map Row.date)).zip
      ((ffillCol .na ((ffill3 df).map Row.weekday)).zip
        (ffillCol .na ((ffill3 df).map Row.location))))).map setFfillFields = _
  rw [h1, h2, h3, ffillCol_idem, ffillCol_idem, ffillCol_idem]
  exact zip_map_setFfillFields df _

/-- C9: the forward fill of the date, weekday and location columns is
idempotent — filling an already-filled frame is a no-op. -/
theorem ffill_idempotent (df : List Row) : ffill3 (ffill3 df) = ffill3 df :=
  ffill3_idem df

/-! ### C8: a malformed date aborts the whole sheet -/

theorem mapM_option_none {α β : Type} (f : α → Option β) (l : List α) (a : α)
    (ha : a ∈ l) (hf : f a = none) : l.mapM f = none := by
  induction l with
  | nil => cases ha
  | cons x xs ih =>
    rw [List.mapM_cons]
    rcases List.mem_cons.mp ha with h | h
    · subst h
      rw [hf]
      rfl
    · cases hx : f x with
      | none => rfl
      | some b =>
        show (List.mapM f xs >>= fun ys => pure (b :: ys)) = none
        rw [ih h]
        rfl

/-- C8: if any surviving row's (forward-filled, non-missing) date value
fails to parse, `build_events_dict` raises before emitting anything — the
whole sheet aborts with no partial day-to-events mapping. -/
theorem malformed_date_aborts (df : List Row) (r : Row)
    (hr : r ∈ keptRows df) (hbad : parse_date r.date = none) :
    (build_events_dict df).2 = none := by
  show (match (keptRows df).mapM
      (fun r => (parse_date r.date).map fun d => (d, r)) with
    | none => none
    | some prs => prs.foldlM (fun m dr => stepRow m dr.1.day dr.2) []) = none
  rw [mapM_option_none _ _ r hr (by rw [hbad]; rfl)]

/-- A sheet row whose date cell cannot be parsed as a date. -/
def rC8 : Row :=
  { date := .str "Nov 5", weekday := .na, location := .na,
    time := .str "0900-1200", classUse := .na, loanUse := .na,
    visitUse := .na, reason := .str "Math", unit := .na }

/-- Witness for C8: a one-row sheet with the unparseable date `"Nov 5"`
produces no events mapping at all. -/
theorem malformed_date_aborts_witness :
    (build_events_dict [rC8]).2 = none :=
  malformed_date_aborts [rC8] rC8 (by decide) (by decide)

/-! ### C3: shape of the month matrix -/

theorem chunk7_flatten (l : List Nat) : (chunk7 l).flatten = l := by
  induction l using chunk7.induct with
  | case1 => simp [chunk7]
  | case2 c rest ih =>
    rw [chunk7]
    simp only [List.flatten_cons]
    rw [ih, List.take_append_drop]

theorem chunk7_length_eq (l : List Nat) : (chunk7 l).length = (l.length + 6) / 7 := by
  induction l using chunk7.induct with
  | case1 => simp [chunk7]
  | case2 c rest ih =>
    rw [chunk7]
    simp only [List.length_cons, ih, List.length_drop]
    omega

theorem chunk7_rows (l : List Nat) :
    7 ∣ l.length → ∀ row ∈ chunk7 l, row.length = 7 := by
  induction l using chunk7.induct with
  | case1 =>
    intro _ row hr
    simp [chunk7] at hr
  | case2 c rest ih =>
    intro hdvd row hr
    rw [chunk7] at hr
    rcases List.mem_cons.mp hr with h | h
    · subst h
      rw [List.length_take]
      rcases hdvd with ⟨k, hk⟩
      simp only [List.length_cons] at hk ⊢
      omega
    · refine ih ?_ row h
      rw [List.length_drop]
      rcases hdvd with ⟨k, hk⟩
      exact ⟨k - 1, by simp only [List.length_cons] at hk ⊢; omega⟩

theorem monthDayList_length (fw y m : Nat) :
    (monthDayList fw y m).length =
      ((((pyWeekday y m 1 : Int) - fw) % 7)).toNat + daysInMonth y m +
        ((((fw : Int) - pyWeekday y m 1 - daysInMonth y m) % 7)).toNat := by
  simp [monthDayList, List.length_append, List.length_replicate, List.length_range']
  omega

theorem monthDayList_length_dvd (fw y m : Nat) : 7 ∣ (monthDayList fw y m).length := by
  rw [monthDayList_length]
  omega

theorem countP_monthDayList (fw y m : Nat) :
    (monthDayList fw y m).countP (fun c => c ≠ 0) = daysInMonth y m := by
  simp only [monthDayList, List.countP_append]
  have hz : ∀ n : Nat, (List.replicate n 0).countP (fun c : Nat => c ≠ 0) = 0 := by
    intro n
    rw [List.countP_eq_zero]
    intro a ha
    rw [List.eq_of_mem_replicate ha]
    simp
  have ho : (List.range' 1 (daysInMonth y m)).countP (fun c : Nat => c ≠ 0) =
      daysInMonth y m := by
    refine Eq.trans (List.countP_eq_length.mpr ?_) (List.length_range' 1 1 _)
    intro a ha
    rcases List.mem_range'.mp ha with ⟨i, hi, rfl⟩
    simp
  rw [hz, hz, ho]
  omega

theorem daysInMonth_bounds (y m : Nat) (h1 : 1 ≤ m) (h2 : m ≤ 12) :
    28 ≤ daysInMonth y m ∧ daysInMonth y m ≤ 31 := by
  interval_cases m <;> simp only [daysInMonth] <;>
    first
    | omega
    | (split_ifs <;> omega)

/-- C3: for every valid month, the Sunday-first month matrix has rows of
length exactly 7, between 4 and 6 rows, and as many non-zero cells as the
month has days. -/
theorem monthcalendar_shape (y m : Nat) (h1 : 1 ≤ m) (h2 : m ≤ 12) :
    (∀ row ∈ monthcalendar 6 y m, row.length = 7) ∧
    4 ≤ (monthcalendar 6 y m).length ∧ (monthcalendar 6 y m).length ≤ 6 ∧
    (monthcalendar 6 y m).flatten.countP (fun c => c ≠ 0) = daysInMonth y m := by
  have hdvd := monthDayList_length_dvd 6 y m
  have hlen := monthDayList_length 6 y m
  have hbounds := daysInMonth_bounds y m h1 h2
  refine ⟨chunk7_rows _ hdvd, ?_, ?_, ?_⟩
  · rw [monthcalendar, chunk7_length_eq]
    omega
  · rw [monthcalendar, chunk7_length_eq]
    omega
  · rw [monthcalendar, chunk7_flatten]
    exact countP_monthDayList 6 y m

/-- Witness for C3 at November 2025 (a six-week month). -/
theorem monthcalendar_shape_witness :
    (∀ row ∈ monthcalendar 6 2025 11, row.length = 7) ∧
    4 ≤ (monthcalendar 6 2025 11).length ∧ (monthcalendar 6 2025 11).length ≤ 6 ∧
    (monthcalendar 6 2025 11).flatten.countP (fun c => c ≠ 0) = daysInMonth 2025 11 :=
  monthcalendar_shape 2025 11 (by decide) (by decide)

/-! ### C4: vertical placement of the week rows -/

/-- C4 counterexample: in a 6-week grid the cell rectangle of week 0,
day column 0 has its bottom edge at `y = 49/10 = 6 - (0+1) - 0.1`, not at
`6 - (0+1) = 5` as the claim states: the code shifts every cell row down
by a further `0.1` (app.py 221). -/
theorem cell_row_y_cex :
    (cellCmds 6 0 0 0 []).head?.map DrawCmd.yPos = some (49 / 10 : ℚ) ∧
    ((49 / 10 : ℚ) = (6 : ℚ) - (0 + 1) - 1 / 10 ∧ (49 / 10 : ℚ) ≠ (6 : ℚ) - (0 + 1)) := by
  refine ⟨?_, by norm_num, by norm_num⟩
  norm_num [cellCmds, cellY, DrawCmd.yPos]

/-- C4 (amended): every command of the cell block of week `wIdx` is
anchored to `cellY weeks wIdx = weeks - (wIdx+1) - 0.1` — the rectangle's
bottom edge sits there, the day number `0.95` above it and the event text
`0.8` above it. -/
theorem cell_block_y (weeks wIdx dIdx day : Nat) (ev : EventsMap) :
    (∃ fc, (cellCmds weeks wIdx dIdx day ev).head? =
      some (DrawCmd.rect dIdx (cellY weeks wIdx) 1 1 fc (some "#DDDDDD") (4 / 5))) ∧
    (∀ cmd ∈ cellCmds weeks wIdx dIdx day ev,
      cmd.yPos = cellY weeks wIdx ∨ cmd.yPos = cellY weeks wIdx + 19 / 20 ∨
        cmd.yPos = cellY weeks wIdx + 4 / 5) ∧
    cellY weeks wIdx = (weeks : ℚ) - (wIdx + 1) - 1 / 10 := by
  refine ⟨?_, ?_, rfl⟩
  · simp only [cellCmds]
    split_ifs <;> exact ⟨_, rfl⟩
  · simp only [cellCmds]
    split_ifs <;> intro cmd hcmd <;>
        simp only [List.mem_cons, List.not_mem_nil, or_false] at hcmd <;>
        (first
          | (rcases hcmd with rfl | rfl | rfl)
          | (rcases hcmd with rfl | rfl)
          | (rcases hcmd with rfl)) <;>
      simp [DrawCmd.yPos]

/-- Witness for the amended C4 at a concrete cell: the week-0 rectangle
of a 6-week grid. -/
theorem cell_block_y_witness :
    (DrawCmd.rect 0 (cellY 6 0) 1 1 "#FFFFFF" (some "#DDDDDD") (4 / 5)).yPos =
        cellY 6 0 ∨
    (DrawCmd.rect 0 (cellY 6 0) 1 1 "#FFFFFF" (some "#DDDDDD") (4 / 5)).yPos =
        cellY 6 0 + 19 / 20 ∨
    (DrawCmd.rect 0 (cellY 6 0) 1 1 "#FFFFFF" (some "#DDDDDD") (4 / 5)).yPos =
        cellY 6 0 + 4 / 5 :=
  (cell_block_y 6 0 0 0 []).2.1 _ (by simp [cellCmds])

/-! ### C5: mutation effects of the two components -/

/-- A two-row sheet whose second row has sparse (missing) date, weekday
and location cells. -/
def dfC5 : List Row :=
  [{ date := .str "2025-11-05", weekday := .str "三", location := .str "A",
     time := .str "0900-1200", classUse := .na, loanUse := .na,
     visitUse := .na, reason := .str "Math", unit := .na },
   { date := .na, weekday := .na, location := .na,
     time := .str "1400-1600", classUse := .na, loanUse := .na,
     visitUse := .na, reason := .str "Club", unit := .na }]

/-- C5 counterexample: extraction does NOT leave the caller's table
unchanged (the in-place forward fill of app.py 92 rewrites the second
row), and layout does NOT leave shared state alone (it overwrites the
`calendar` module's global first weekday). -/
theorem purity_cex :
    (build_events_dict dfC5).1 ≠ dfC5 ∧
    (draw_month_calendar ⟨0⟩ 2025 11 [] "T").2 ≠ ⟨0⟩ := by
  constructor
  · decide
  · decide

/-- C5 (amended): the extractor's only caller-visible mutation is the
forward fill of the date/weekday/location columns — the table is returned
exactly forward-filled, and an already-filled table passes through
unchanged; the layout engine always sets the global first weekday to
Sunday (6), its command output being a function of its arguments alone. -/
theorem mutation_exact (df : List Row) :
    (build_events_dict df).1 = ffill3 df ∧
    (build_events_dict (ffill3 df)).1 = ffill3 df ∧
    ∀ (gs : GlobalState) (y m : Nat) (ev : EventsMap) (t : String),
      (draw_month_calendar gs y m ev t).2 = ⟨6⟩ := by
  refine ⟨rfl, ?_, fun _ _ _ _ _ => rfl⟩
  show ffill3 (ffill3 df) = ffill3 df
  exact ffill3_idem df

/-! ### C6: determinism of the layout engine -/

/-- C6: the emitted command sequence depends only on year, month, events
mapping and title — in particular it is independent of the ambient global
state of the environment (the source resets the calendar module's first
weekday before reading it, and uses no clock, locale or time zone). -/
theorem layout_deterministic (gs1 gs2 : GlobalState) (y m : Nat)
    (ev : EventsMap) (t : String) :
    (draw_month_calendar gs1 y m ev t).1 = (draw_month_calendar gs2 y m ev t).1 :=
  rfl

end CalApp
